import Mathlib

/-!
# pi-lsm303d: a shallow embedding of `i2c_lsm303d.c` and `lsm303d.h`

The C functions of the driver are embedded as Lean functions over an explicit
world state.  Conventions of the embedding:

* The kernel and the device behind the I2C file descriptor are an arbitrary
  state machine `Sys σ`; `open`, `ioctl`, `write`, `read` and `strtol` are its
  fields, so every theorem holds for every transport.
* Every system call the program makes is appended, with its result, to
  `World.calls` (the view `strace` would give).  The bus transactions are the
  `Call.write` and `Call.read` entries.
* `exit(n)` is the result `Res.exit n`; a normal return is `Res.ret v`.
* `char` is the unsigned 8-bit type of the ARM Linux ABI the package targets
  (Raspberry Pi, NanoPi), modelled as `Fin 256`; `int` objects are laid out
  little-endian, so the first byte of an `int` is its low byte.
* A `float` is only stored, copied and returned by the code that is compiled
  (no floating-point arithmetic is executed), so it is modelled by its value:
  a rational, an infinity or NaN.
* Text that runs from `//` to the end of a line in the C source is a comment
  and is not executed; only compiled statements are embedded.
-/

namespace Lsm303d

/-! ## Data model -/

/-- An 8-bit `char` (unsigned on the target ABI). -/
abbrev Byte := Fin 256

/-- The value of a C `float`. -/
inductive CFloat where
  | fin (q : ℚ)
  | posInf
  | negInf
  | nan
  deriving DecidableEq

/-- The float constant zero (`0` converted to `float`). -/
def CFloat.zero : CFloat := CFloat.fin 0

/-- The property of a float of lying in the half-open interval `[lo, hi)`. -/
def CFloat.inRange (lo hi : ℚ) : CFloat → Prop
  | CFloat.fin q => lo ≤ q ∧ q < hi
  | _ => False

instance (lo hi : ℚ) (x : CFloat) : Decidable (CFloat.inRange lo hi x) := by
  cases x <;> unfold CFloat.inRange <;> infer_instance

/-- The measurement data struct `struct lsm303ddata`. -/
structure lsm303ddata where
  X : CFloat
  Y : CFloat
  Z : CFloat
  deriving DecidableEq

/-- The status and control data struct `struct lsm303dinf`. -/
structure lsm303dinf where
  prd_id : Byte
  ctl_0_mode : Byte
  ctl_1_mode : Byte
  deriving DecidableEq

/-! ## Register addresses and constants of `lsm303d.h` -/

def I2CBUS : String := "/dev/i2c-1"
def I2C_ADDR : String := "0x1d"
def PRD_ID : Byte := 0x49
def POWER_MODE_NORMAL : Byte := 0x00

def LSM303D_TEMP_OUT_L : Byte := 0x05
def LSM303D_TEMP_OUT_H : Byte := 0x06
def LSM303D_STATUS_M : Byte := 0x07
def LSM303D_OUT_X_L_M : Byte := 0x08
def LSM303D_OUT_X_H_M : Byte := 0x09
def LSM303D_OUT_Y_L_M : Byte := 0x0A
def LSM303D_OUT_Y_H_M : Byte := 0x0B
def LSM303D_OUT_Z_L_M : Byte := 0x0C
def LSM303D_OUT_Z_H_M : Byte := 0x0D
def LSM303D_WHO_AM_I : Byte := 0x0F
def LSM303D_CTRL0 : Byte := 0x1F
def LSM303D_CTRL1 : Byte := 0x20
def LSM303D_CTRL2 : Byte := 0x21
def LSM303D_CTRL3 : Byte := 0x22
def LSM303D_CTRL4 : Byte := 0x23
def LSM303D_CTRL5 : Byte := 0x24
def LSM303D_CTRL6 : Byte := 0x25
def LSM303D_CTRL7 : Byte := 0x26

/-- The `open(2)` flag `O_RDWR` of `<fcntl.h>`. -/
def O_RDWR : Int := 2

/-- The `ioctl(2)` request `I2C_SLAVE` of `<linux/i2c-dev.h>`. -/
def I2C_SLAVE : Int := 0x0703

/-- The error number `EINTR` of `<errno.h>`. -/
def EINTR : Int := 4

/-- The error number `EINVAL` of `<errno.h>`. -/
def EINVAL : Int := 22

/-! ## The environment: system calls and the world state -/

/-- One system call together with its result. -/
inductive Call where
  | open (path : String) (flags : Int) (ret : Int)
  | ioctl (fd : Int) (request : Int) (arg : Int) (ret : Int)
  | write (fd : Int) (bytes : List Byte) (ret : Int)
  | read (fd : Int) (count : Nat) (res : Option (List Byte))
  deriving DecidableEq

/-- The kernel, the bus and the device as a state machine over `σ`.
`sys_write` answers with the return value of `write(2)`; `sys_read` answers
with the bytes delivered, or `none` when `read(2)` returns `-1`. -/
structure Sys (σ : Type) where
  sys_open : String → Int → σ → Int × σ
  sys_ioctl : Int → Int → Int → σ → Int × σ
  sys_write : Int → List Byte → σ → Int × σ
  sys_read : Int → Nat → σ → Option (List Byte) × σ
  strtol : String → Nat → Int

/-- The globals of `lsm303d.h`, the environment state, the trace of system
calls and the text printed on standard output. -/
structure World (σ : Type) where
  dev : σ
  i2cfd : Int
  verbose : Int
  offset : CFloat × CFloat × CFloat
  declination : CFloat
  calls : List Call
  stdout : String

/-- How a C function ends: it returns a value, or the process exits. -/
inductive Res (α : Type) where
  | ret (val : α)
  | exit (status : Int)
  deriving DecidableEq

/-- A process exit status is a failure when its low eight bits are non-zero. -/
def Res.isFailure {α : Type} : Res α → Prop
  | Res.exit status => status % 256 ≠ 0
  | Res.ret _ => False

variable {σ : Type}

/-- The call `printf(s)` with the format already expanded. -/
def printf (s : String) (w : World σ) : World σ :=
  { w with stdout := w.stdout ++ s }

/-- The statement `if(verbose == 1) printf(s)`. -/
def debug (s : String) (w : World σ) : World σ :=
  if w.verbose = 1 then printf s w else w

/-- The call `open(path, flags)`. -/
def c_open (sys : Sys σ) (path : String) (flags : Int) (w : World σ) : Int × World σ :=
  let r := sys.sys_open path flags w.dev
  (r.1, { w with dev := r.2, calls := w.calls ++ [Call.open path flags r.1] })

/-- The call `ioctl(fd, request, arg)`. -/
def c_ioctl (sys : Sys σ) (fd request arg : Int) (w : World σ) : Int × World σ :=
  let r := sys.sys_ioctl fd request arg w.dev
  (r.1, { w with dev := r.2, calls := w.calls ++ [Call.ioctl fd request arg r.1] })

/-- The call `write(fd, bytes, bytes.length)`. -/
def c_write (sys : Sys σ) (fd : Int) (bytes : List Byte) (w : World σ) : Int × World σ :=
  let r := sys.sys_write fd bytes w.dev
  (r.1, { w with dev := r.2, calls := w.calls ++ [Call.write fd bytes r.1] })

/-- The return value of `read(fd, &buf, 1)` for what the kernel delivered. -/
def read_ret1 : Option (List Byte) → Int
  | none => -1
  | some [] => 0
  | some (_ :: _) => 1

/-- The one-byte buffer after `read(fd, &buf, 1)`: the byte delivered, or the
old content `buf` when the read delivered nothing. -/
def read_buf1 (buf : Byte) : Option (List Byte) → Byte
  | some (b :: _) => b
  | _ => buf

/-- The call `read(fd, &buf, 1)` on a one-byte buffer holding `buf`: the return
value and the buffer afterwards. -/
def c_read1 (sys : Sys σ) (fd : Int) (buf : Byte) (w : World σ) : Int × Byte × World σ :=
  let r := sys.sys_read fd 1 w.dev
  (read_ret1 r.1, read_buf1 buf r.1,
    { w with dev := r.2, calls := w.calls ++ [Call.read fd 1 r.1] })

/-! ## Formatting -/

/-- The conversion `%02X` of an `int` argument: the value as `unsigned int` in
upper-case hexadecimal, padded with zeros to at least two digits. -/
def fmt02X (v : Int) : String :=
  let ds := (Nat.toDigits 16 (v % 4294967296).toNat).map Char.toUpper
  String.mk (List.replicate (2 - ds.length) '0' ++ ds)

/-- The conversion `(int)` of a `long`: the low 32 bits, signed. -/
def toInt32 (v : Int) : Int :=
  (v + 2147483648) % 4294967296 - 2147483648

/-! ## `get_prdid`, `get_i2cbus`, `lsm303d_init` -/

/-- The function `get_prdid()`: the product id register, read with a one-byte
write of the register address followed by a one-byte read. -/
def get_prdid (sys : Sys σ) (w : World σ) : Res Byte × World σ :=
  let reg : Byte := LSM303D_WHO_AM_I
  let buf : Byte := 0
  let r1 := c_write sys w.i2cfd [reg] w
  let w1 := if r1.1 ≠ 1 then
      printf ("Error: I2C write failure for register 0x" ++ fmt02X reg.val ++ "\n") r1.2
    else r1.2
  let r2 := c_read1 sys w1.i2cfd buf w1
  let w2 := if r2.1 ≠ 1 then
      printf ("Error: I2C read failure for register 0x" ++ fmt02X reg.val ++ "\n") r2.2.2
    else r2.2.2
  (Res.ret r2.2.1, w2)

/-- The function `get_i2cbus(i2cbus, i2caddr)`: opens the bus, binds the sensor
address and probes the product id. -/
def get_i2cbus (sys : Sys σ) (i2cbus i2caddr : String) (w : World σ) : Res Unit × World σ :=
  let r := c_open sys i2cbus O_RDWR w
  let w1 : World σ := { r.2 with i2cfd := r.1 }
  if w1.i2cfd < 0 then
    (Res.exit (-1), printf ("Error failed to open I2C bus [" ++ i2cbus ++ "].\n") w1)
  else
    let w2 := debug ("Debug: I2C bus device: [" ++ i2cbus ++ "]\n") w1
    let addr : Int := toInt32 (sys.strtol i2caddr 16)
    let w3 := debug ("Debug: Sensor address: [0x" ++ fmt02X addr ++ "]\n") w2
    let r4 := c_ioctl sys w3.i2cfd I2C_SLAVE addr w3
    if r4.1 ≠ 0 then
      (Res.exit (-1), printf ("Error can't find sensor at address [0x" ++ fmt02X addr ++ "].\n") r4.2)
    else
      match get_prdid sys r4.2 with
      | (Res.exit status, w5) => (Res.exit status, w5)
      | (Res.ret id, w5) =>
        if id = 0 then
          (Res.exit (-1), printf ("Error: No response from I2C. addr [0x" ++ fmt02X addr ++ "]?\n") w5)
        else
          (Res.ret (), debug ("Debug: Got data @addr: [0x" ++ fmt02X addr ++ "]\n") w5)

/-- One step of `lsm303d_init`: the debug line, the two-byte write of
`buf = {reg, val}` and the fatal check of its return value. -/
def init_write (sys : Sys σ) (reg val : Byte) (w : World σ) : Res Unit × World σ :=
  let w1 := debug ("Debug: Write databyte: [0x" ++ fmt02X val.val ++ "] to   [0x"
    ++ fmt02X reg.val ++ "]\n") w
  let r := c_write sys w1.i2cfd [reg, val] w1
  if r.1 ≠ 2 then
    (Res.exit (-1), printf ("Error: I2C write failure for register 0x" ++ fmt02X reg.val ++ "\n") r.2)
  else (Res.ret (), r.2)

/-- The function `lsm303d_init(lsm303dd)`: writes CTRL5, CTRL6 and CTRL7 and
clears the offset. -/
def lsm303d_init (sys : Sys σ) (_lsm303dd : lsm303ddata) (w : World σ) : Res Unit × World σ :=
  let w0 := debug "Debug: lsm303d_init(): ...\n" w
  match init_write sys LSM303D_CTRL5 0x64 w0 with
  | (Res.exit status, w1) => (Res.exit status, w1)
  | (Res.ret _, w1) =>
    match init_write sys LSM303D_CTRL6 0x20 w1 with
    | (Res.exit status, w2) => (Res.exit status, w2)
    | (Res.ret _, w2) =>
      match init_write sys LSM303D_CTRL7 0x00 w2 with
      | (Res.exit status, w3) => (Res.exit status, w3)
      | (Res.ret _, w3) =>
        let w4 : World σ := { w3 with offset := (CFloat.zero, CFloat.zero, CFloat.zero) }
        (Res.ret (), debug "Debug: lsm303d_init(): done\n" w4)

/-! ## The stubs: `lsm303d_set`, `lsm303d_reset`, `lsm303d_swreset`, `lsm303d_info`, `set_cmfreq` -/

/-- The function `lsm303d_set()`: its body holds no statement. -/
def lsm303d_set (_sys : Sys σ) (w : World σ) : Res Unit × World σ :=
  (Res.ret (), w)

/-- The function `lsm303d_reset()`: its body holds no statement. -/
def lsm303d_reset (_sys : Sys σ) (w : World σ) : Res Unit × World σ :=
  (Res.ret (), w)

/-- The function `lsm303d_swreset()`: its only statement is `exit(0)`. -/
def lsm303d_swreset (_sys : Sys σ) (w : World σ) : Res Int × World σ :=
  (Res.exit 0, w)

/-- The function `lsm303d_info(lsm303di)`: stores the product id in the struct
it is given and returns the struct. -/
def lsm303d_info (sys : Sys σ) (lsm303di : lsm303dinf) (w : World σ) :
    Res lsm303dinf × World σ :=
  match get_prdid sys w with
  | (Res.exit status, w1) => (Res.exit status, w1)
  | (Res.ret id, w1) => (Res.ret { lsm303di with prd_id := id }, w1)

/-- The function `set_cmfreq(new_mode)`: its only statement is `return(0)`. -/
def set_cmfreq (_sys : Sys σ) (_new_mode : Int) (w : World σ) : Res Int × World σ :=
  (Res.ret 0, w)

/-! ## `lsm303d_read` and `get_heading` -/

/-- The function `lsm303d_read(lsm303dd)`: its only statement is `return(0)`.
The result pairs the return value with the struct behind the pointer. -/
def lsm303d_read (_sys : Sys σ) (lsm303dd : lsm303ddata) (w : World σ) :
    Res (Int × lsm303ddata) × World σ :=
  (Res.ret (0, lsm303dd), w)

/-- The function `get_heading(lsm303dd)`: declares `temp0`, `temp1` and `deg`,
all initialised to `0`, and returns `deg`. -/
def get_heading (_lsm303dd : lsm303ddata) (w : World σ) : Res CFloat × World σ :=
  let _temp0 : CFloat := CFloat.zero
  let _temp1 : CFloat := CFloat.zero
  let deg : CFloat := CFloat.zero
  (Res.ret deg, w)

/-! ## `lsm303d_dump` -/

/-- The loop `for(int i = lo; i < lo + n; i++) body` whose body may end the
process. -/
def for_loop {S : Type} (body : Nat → S → Res Unit × S) : Nat → Nat → S → Res Unit × S
  | _, 0, s => (Res.ret (), s)
  | i, n + 1, s =>
    match body i s with
    | (Res.exit status, s1) => (Res.exit status, s1)
    | (Res.ret _, s1) => for_loop body (i + 1) n s1

/-- The loop `for(int i = lo; i < lo + n; i++) body` whose body only prints. -/
def for_each {S : Type} (body : Nat → S → S) : Nat → Nat → S → S
  | _, 0, s => s
  | i, n + 1, s => for_each body (i + 1) n (body i s)

/-- The body of the first loop of `lsm303d_dump` on the pair of `buf` and the
world: a one-byte write of the first byte of `i`, then a one-byte read into
`buf[i]`; either failing is fatal. -/
def dump_read_body (sys : Sys σ) (i : Nat) (s : List Byte × World σ) :
    Res Unit × (List Byte × World σ) :=
  let r1 := c_write sys s.2.i2cfd [Fin.ofNat i] s.2
  if r1.1 ≠ 1 then
    (Res.exit (-1),
      (s.1, printf ("Error: I2C write failure for register 0x" ++ fmt02X i ++ "\n") r1.2))
  else
    let r2 := c_read1 sys r1.2.i2cfd (s.1.getD i 0) r1.2
    let buf := s.1.set i r2.2.1
    if r2.1 ≠ 1 then
      (Res.exit (-1),
        (buf, printf ("Error: I2C read failure for register 0x" ++ fmt02X i ++ "\n") r2.2.2))
    else (Res.ret (), (buf, r2.2.2))

/-- The first loop of `lsm303d_dump`: `char buf[64] = {0}` filled register by
register. -/
def dump_read (sys : Sys σ) (w : World σ) : Res Unit × (List Byte × World σ) :=
  for_loop (dump_read_body sys) 0 64 (List.replicate 64 0, w)

/-- The body of the second loop of `lsm303d_dump`: one cell of the register
table, preceded by the row label where a row starts. -/
def dump_table_body (buf : List Byte) (i : Nat) (w : World σ) : World σ :=
  if i ≥ 0 ∧ i < 5 then printf " --" w
  else if i = 14 then printf " --" w
  else
    let w1 := if i = 16 then printf "\n[0x10]" w else w
    if i = 16 ∨ i = 17 then printf " --" w1
    else
      let w2 := if i = 32 then printf "\n[0x20]" w1 else w1
      let w3 := if i = 48 then printf "\n[0x30]" w2 else w2
      printf (" " ++ fmt02X (buf.getD i 0).val) w3

/-- The register table of `lsm303d_dump`: from `printf("[0x00]")` to the end of
the second loop. -/
def dump_table (buf : List Byte) (w : World σ) : World σ :=
  for_each (dump_table_body buf) 0 64 (printf "[0x00]" w)

/-- The macro `BYTE_TO_BINARY(byte)`: the eight `%c` arguments. -/
def BYTE_TO_BINARY (byte : Byte) : List Char :=
  [ if byte.val &&& 0x80 ≠ 0 then '1' else '0',
    if byte.val &&& 0x40 ≠ 0 then '1' else '0',
    if byte.val &&& 0x20 ≠ 0 then '1' else '0',
    if byte.val &&& 0x10 ≠ 0 then '1' else '0',
    if byte.val &&& 0x08 ≠ 0 then '1' else '0',
    if byte.val &&& 0x04 ≠ 0 then '1' else '0',
    if byte.val &&& 0x02 ≠ 0 then '1' else '0',
    if byte.val &&& 0x01 ≠ 0 then '1' else '0' ]

/-- The label the `switch` of the third loop prints for index `i`, or `none`
where the `default` case runs `continue`. -/
def dump_name (i : Nat) : Option String :=
  match i with
  | 5 => some "TEMP_OUT_L"
  | 6 => some "TEMP_OUT_M"
  | 7 => some "  STATUS_M"
  | 8 => some " OUT_X_L_M"
  | 9 => some " OUT_X_H_M"
  | 10 => some " OUT_Y_L_M"
  | 11 => some " OUT_Y_H_M"
  | 12 => some " OUT_Z_L_M"
  | 13 => some " OUT_X_H_M"
  | 15 => some " WHO_AMI_I"
  | _ => none

/-- The body of the third loop of `lsm303d_dump`: the label, then the byte in
hexadecimal and in binary. -/
def dump_names_body (buf : List Byte) (i : Nat) (w : World σ) : World σ :=
  match dump_name i with
  | none => w
  | some name =>
    printf (": 0x" ++ fmt02X (buf.getD i 0).val ++ " 0b"
      ++ String.mk (BYTE_TO_BINARY (buf.getD i 0)) ++ "\n") (printf name w)

/-- The register name table of `lsm303d_dump`: the third loop. -/
def dump_names (buf : List Byte) (w : World σ) : World σ :=
  for_each (dump_names_body buf) 0 64 w

/-- The function `lsm303d_dump()`: reads the 64 registers, prints the register
table and the register name table, and ends the process with `exit(0)`. -/
def lsm303d_dump (sys : Sys σ) (w : World σ) : Res Int × World σ :=
  match dump_read sys w with
  | (Res.exit status, (_, w1)) => (Res.exit status, w1)
  | (Res.ret _, (buf, w1)) =>
    let w2 := printf "------------------------------------------------------\n" w1
    let w3 := printf "STMicroelectronics LSM303D register dump:\n" w2
    let w4 := printf "------------------------------------------------------\n" w3
    let w5 := printf " reg    0  1  2  3  4  5  6  7  8  9  A  B  C  D  E  F\n" w4
    let w6 := printf "------------------------------------------------------\n" w5
    let w7 := dump_table buf w6
    let w8 := printf "\n\n" w7
    let w9 := printf "Sensor Reg: hex  binary\n" w8
    let w10 := printf "---------------------------\n" w9
    let w11 := dump_names buf w10
    (Res.exit 0, w11)

/-! ## `delay` and the wait it is built on -/

/-- The struct `struct timespec` of `<time.h>`. -/
structure timespec where
  tv_sec : Int
  tv_nsec : Int
  deriving DecidableEq

/-- The clock and signal environment of `nanosleep(2)`.  `signals` lists, for
each coming wait, the nanoseconds after which a signal arrives; `late` is the
time by which a completed wait oversleeps; `slept` is the total time slept so
far in nanoseconds; `waits` records the requests passed to `nanosleep`. -/
structure Clock where
  signals : List Nat
  late : Nat
  slept : Nat
  errno : Int
  waits : List timespec

/-- The nanoseconds a valid request asks for. -/
def timespec.nanos (ts : timespec) : Nat :=
  (ts.tv_sec * 1000000000 + ts.tv_nsec).toNat

/-- The time `m` nanoseconds as a normalised `struct timespec`. -/
def timespec.ofNanos (m : Nat) : timespec :=
  { tv_sec := ((m / 1000000000 : Nat) : Int), tv_nsec := ((m % 1000000000 : Nat) : Int) }

/-- A request that `nanosleep` accepts: `tv_sec` is not negative and `tv_nsec`
lies in `0 .. 999999999`. -/
def timespec.valid (ts : timespec) : Prop :=
  0 ≤ ts.tv_sec ∧ 0 ≤ ts.tv_nsec ∧ ts.tv_nsec ≤ 999999999

/-- The call `nanosleep(&req, &rem)`, after `nanosleep(2)`: the return value,
the content of `rem` afterwards and the clock afterwards.  A request with a
negative `tv_sec` or a `tv_nsec` outside `0 .. 999999999` fails with `EINVAL`.
A signal that arrives before the requested time has elapsed interrupts the
wait: it fails with `EINTR` and writes the remaining time to `rem`.
Otherwise the whole time is slept and the call returns `0`. -/
def nanosleep (req rem : timespec) (c : Clock) : Int × timespec × Clock :=
  let c1 : Clock := { c with waits := c.waits ++ [req] }
  if req.tv_sec < 0 ∨ req.tv_nsec < 0 ∨ req.tv_nsec > 999999999 then
    (-1, rem, { c1 with errno := EINVAL })
  else
    match c1.signals with
    | [] => (0, rem, { c1 with slept := c1.slept + req.nanos + c1.late })
    | k :: rest =>
      if k < req.nanos then
        (-1, timespec.ofNanos (req.nanos - k),
          { c1 with signals := rest, slept := c1.slept + k, errno := EINTR })
      else
        (0, rem, { c1 with signals := rest, slept := c1.slept + req.nanos + c1.late })

/-- The loop `do { res = nanosleep(&ts, &ts); } while (res && errno == EINTR);`
of `delay`, with `fuel` bounding the number of iterations; `none` when the
fuel is used up. -/
def delay_loop : Nat → timespec → Clock → Option (Int × Clock)
  | 0, _, _ => none
  | fuel + 1, ts, c =>
    let r := nanosleep ts ts c
    if r.1 ≠ 0 ∧ r.2.2.errno = EINTR then delay_loop fuel r.2.1 r.2.2
    else some (r.1, r.2.2)

/-- The function `delay(msec)`: the return value and the clock afterwards.
Division and remainder are those of C (truncating). -/
def delay (fuel : Nat) (msec : Int) (c : Clock) : Option (Int × Clock) :=
  if msec < 0 then some (-1, { c with errno := EINVAL })
  else
    let ts : timespec := { tv_sec := msec.tdiv 1000, tv_nsec := msec.tmod 1000 * 1000000 }
    delay_loop fuel ts c

/-! ## A simulated sensor for concrete runs -/

/-- A simulated LSM303D: the register pointer set by the last one-byte write
and the register image. -/
structure MockDev where
  ptr : Byte
  regs : List Byte

/-- A transport on which every call succeeds: a one-byte write selects a
register, a two-byte write stores a value, a read delivers the selected
register (no auto-increment). -/
def mockSys : Sys MockDev where
  sys_open := fun _ _ s => (3, s)
  sys_ioctl := fun _ _ _ s => (0, s)
  sys_write := fun _ bytes s =>
    match bytes with
    | [a] => (1, { s with ptr := a })
    | [a, v] => (2, { s with regs := s.regs.set a.val v })
    | _ => (bytes.length, s)
  sys_read := fun _ n s => (some (List.replicate n (s.regs.getD s.ptr.val 0)), s)
  strtol := fun _ _ => 0x1d

/-- A transport with no sensor behind it: the bus opens and the address binds,
but every write and read fails. -/
def deadSys : Sys MockDev where
  sys_open := fun _ _ s => (3, s)
  sys_ioctl := fun _ _ _ s => (0, s)
  sys_write := fun _ _ s => (-1, s)
  sys_read := fun _ _ s => (none, s)
  strtol := fun _ _ => 0x1d

/-- A register image: `n` registers that all hold `0`, except WHO_AM_I which
holds the product id. -/
def mockRegs (n : Nat) : List Byte :=
  (List.replicate n (0 : Byte)).set 15 PRD_ID

/-- A world before `get_i2cbus`: no descriptor, nothing traced or printed. -/
def mockWorld (verbose : Int) (offset : CFloat × CFloat × CFloat) : World MockDev where
  dev := { ptr := 0, regs := mockRegs 64 }
  i2cfd := 0
  verbose := verbose
  offset := offset
  declination := CFloat.zero
  calls := []
  stdout := ""

/-- A world whose sensor holds the raw sample X = 4096, Y = 0, Z = 0 in its
magnetic data registers (OUT_X_H_M = 0x10, the other five 0x00). -/
def sampleWorld : World MockDev where
  dev := { ptr := 0, regs := (mockRegs 64).set 9 0x10 }
  i2cfd := 3
  verbose := 0
  offset := (CFloat.zero, CFloat.zero, CFloat.zero)
  declination := CFloat.zero
  calls := []
  stdout := ""

/-- A clock on which the next two waits are interrupted, after 2 ms and after
1 ms, and completed waits oversleep by 1000 ns. -/
def mockClock : Clock where
  signals := [2000000, 1000000]
  late := 1000
  slept := 0
  errno := 0
  waits := []

/-- A transport that counts the writes it has seen and cuts the `k`-th one
short (it takes one byte only); every other write is complete. -/
def shortSys (k : Nat) : Sys Nat where
  sys_open := fun _ _ n => (3, n)
  sys_ioctl := fun _ _ _ n => (0, n)
  sys_write := fun _ bytes n => (if n + 1 = k then 1 else bytes.length, n + 1)
  sys_read := fun _ count n => (some (List.replicate count 0), n)
  strtol := fun _ _ => 0x1d

/-- A world on the counting transport, before any write, with the offset
(7, 8, 9). -/
def countWorld : World Nat where
  dev := 0
  i2cfd := 3
  verbose := 0
  offset := (CFloat.fin 7, CFloat.fin 8, CFloat.fin 9)
  declination := CFloat.zero
  calls := []
  stdout := ""

/-- The value of a list of binary digits read as a base-2 numeral, most
significant digit first. -/
def binaryValue (cs : List Char) : Nat :=
  cs.foldl (fun acc c => 2 * acc + (if c = '1' then 1 else 0)) 0

/-! ## Descriptions the theorems compare the code with -/

/-- The requests, in nanoseconds, of a wait of `total` ns that is resumed with
the remaining time after each interruption: the first request is `total`; a
signal after `k < total` ns interrupts it and the next request is
`total - k`; a signal that comes no earlier than the end of the request, or
no signal, ends the list. -/
def remaining_requests : Nat → List Nat → List Nat
  | total, [] => [total]
  | total, k :: rest =>
    if k < total then total :: remaining_requests (total - k) rest else [total]

/-- The trace `get_i2cbus` leaves, from the answers of the environment. -/
def i2cbus_trace (sys : Sys σ) (i2cbus i2caddr : String) (w : World σ) : List Call :=
  let o := sys.sys_open i2cbus O_RDWR w.dev
  let addr := toInt32 (sys.strtol i2caddr 16)
  let io := sys.sys_ioctl o.1 I2C_SLAVE addr o.2
  let wr := sys.sys_write o.1 [0x0F] io.2
  let rd := sys.sys_read o.1 1 wr.2
  if o.1 < 0 then [Call.open i2cbus O_RDWR o.1]
  else if io.1 ≠ 0 then [Call.open i2cbus O_RDWR o.1, Call.ioctl o.1 I2C_SLAVE addr io.1]
  else [Call.open i2cbus O_RDWR o.1, Call.ioctl o.1 I2C_SLAVE addr io.1,
        Call.write o.1 [0x0F] wr.1, Call.read o.1 1 rd.1]

/-- The result of `get_i2cbus`, from the answers of the environment. -/
def i2cbus_result (sys : Sys σ) (i2cbus i2caddr : String) (w : World σ) : Res Unit :=
  let o := sys.sys_open i2cbus O_RDWR w.dev
  let addr := toInt32 (sys.strtol i2caddr 16)
  let io := sys.sys_ioctl o.1 I2C_SLAVE addr o.2
  let wr := sys.sys_write o.1 [0x0F] io.2
  let rd := sys.sys_read o.1 1 wr.2
  if o.1 < 0 then Res.exit (-1)
  else if io.1 ≠ 0 then Res.exit (-1)
  else if read_buf1 0 rd.1 = 0 then Res.exit (-1)
  else Res.ret ()

/-- The text the third loop of `lsm303d_dump` prints for index `i`: nothing
where the `switch` runs `continue`, otherwise one line made of the label, the
byte in hexadecimal and the byte in binary. -/
def name_line (buf : List Byte) (i : Nat) : String :=
  match dump_name i with
  | none => ""
  | some name => name ++ (": 0x" ++ fmt02X (buf.getD i 0).val ++ " 0b"
      ++ String.mk (BYTE_TO_BINARY (buf.getD i 0)) ++ "\n")

/-! ## Lemmas -/

theorem debug_frame (m : String) (x : World σ) :
    (debug m x).calls = x.calls ∧ (debug m x).i2cfd = x.i2cfd ∧
    (debug m x).offset = x.offset ∧ (debug m x).dev = x.dev := by
  unfold debug printf; split_ifs <;> simp

theorem printf_stdout (s : String) (w : World σ) : (printf s w).stdout = w.stdout ++ s := rfl

theorem mockSys_write_ok (fd : Int) (bytes : List Byte) (s : MockDev) :
    (mockSys.sys_write fd bytes s).1 = bytes.length := by
  match bytes with
  | [] => rfl
  | [_] => rfl
  | [_, _] => rfl
  | _ :: _ :: _ :: _ => rfl

theorem mockSys_read_ok (fd : Int) (n : Nat) (s : MockDev) :
    ∃ bs, (mockSys.sys_read fd n s).1 = some bs ∧ bs.length = n :=
  ⟨List.replicate n (s.regs.getD s.ptr.val 0), rfl, by simp⟩

theorem init_write_ok (sys : Sys σ) (reg val : Byte) (w : World σ)
    (hok : ∀ fd bytes s, (sys.sys_write fd bytes s).1 = bytes.length) :
    ∃ w1, init_write sys reg val w = (Res.ret (), w1) ∧
      w1.calls = w.calls ++ [Call.write w.i2cfd [reg, val] 2] ∧
      w1.i2cfd = w.i2cfd ∧ w1.verbose = w.verbose := by
  unfold init_write
  simp only [c_write, hok, debug, printf]
  split_ifs <;> simp_all

theorem get_prdid_eq (sys : Sys σ) (w : World σ) :
    (get_prdid sys w).1
      = Res.ret (read_buf1 0 (sys.sys_read w.i2cfd 1 (sys.sys_write w.i2cfd [0x0F] w.dev).2).1) ∧
    (get_prdid sys w).2.calls = w.calls ++
      [Call.write w.i2cfd [0x0F] (sys.sys_write w.i2cfd [0x0F] w.dev).1,
       Call.read w.i2cfd 1 (sys.sys_read w.i2cfd 1 (sys.sys_write w.i2cfd [0x0F] w.dev).2).1] ∧
    (get_prdid sys w).2.i2cfd = w.i2cfd := by
  unfold get_prdid
  simp only [c_write, c_read1, printf, LSM303D_WHO_AM_I]
  refine ⟨?_, ?_, ?_⟩
  · split_ifs <;> rfl
  · split_ifs <;> simp
  · split_ifs <;> rfl

theorem get_prdid_pair (sys : Sys σ) (w : World σ) :
    get_prdid sys w
      = (Res.ret (read_buf1 0 (sys.sys_read w.i2cfd 1 (sys.sys_write w.i2cfd [0x0F] w.dev).2).1),
          (get_prdid sys w).2) :=
  Prod.ext (get_prdid_eq sys w).1 rfl

theorem get_i2cbus_eq (sys : Sys σ) (i2cbus i2caddr : String) (w : World σ) :
    (get_i2cbus sys i2cbus i2caddr w).1 = i2cbus_result sys i2cbus i2caddr w ∧
    (get_i2cbus sys i2cbus i2caddr w).2.calls
      = w.calls ++ i2cbus_trace sys i2cbus i2caddr w := by
  unfold get_i2cbus i2cbus_result i2cbus_trace
  simp only []
  by_cases h1 : (sys.sys_open i2cbus O_RDWR w.dev).1 < 0
  · simp [h1, c_open, printf]
  · by_cases h2 : (sys.sys_ioctl (sys.sys_open i2cbus O_RDWR w.dev).1 I2C_SLAVE
        (toInt32 (sys.strtol i2caddr 16)) (sys.sys_open i2cbus O_RDWR w.dev).2).1 = 0
    · simp only [c_open, c_ioctl, debug_frame, h1, h2, if_false, ne_eq, not_true_eq_false]
      rw [get_prdid_pair]
      simp only [debug_frame, (get_prdid_eq sys _).2.2, (get_prdid_eq sys _).2.1]
      by_cases h3 : read_buf1 0 (sys.sys_read (sys.sys_open i2cbus O_RDWR w.dev).1 1
          (sys.sys_write (sys.sys_open i2cbus O_RDWR w.dev).1 [0x0F]
            (sys.sys_ioctl (sys.sys_open i2cbus O_RDWR w.dev).1 I2C_SLAVE
        (toInt32 (sys.strtol i2caddr 16)) (sys.sys_open i2cbus O_RDWR w.dev).2).2).2).1 = 0
      · simp [h3, printf, debug_frame, get_prdid_eq]
      · simp [h3, printf, debug_frame, get_prdid_eq]
    · simp [h1, h2, c_open, c_ioctl, printf, debug_frame]
theorem ofNanos_nanos (m : Nat) : (timespec.ofNanos m).nanos = m := by
  unfold timespec.nanos timespec.ofNanos
  simp only []
  omega

theorem ofNanos_valid (m : Nat) : (timespec.ofNanos m).valid := by
  unfold timespec.valid timespec.ofNanos
  simp only []
  omega


theorem delay_loop_sound (fuel : Nat) : ∀ (ts : timespec) (c : Clock), ts.valid →
    ∀ r c', delay_loop fuel ts c = some (r, c') → r = 0 ∧ c.slept + ts.nanos ≤ c'.slept := by
  induction fuel with
  | zero => intro ts c _ r c' h; simp [delay_loop] at h
  | succ n ih =>
    intro ts c hv r c' h
    obtain ⟨h1, h2, h3⟩ := hv
    unfold delay_loop nanosleep at h
    have hnot : ¬ (ts.tv_sec < 0 ∨ ts.tv_nsec < 0 ∨ ts.tv_nsec > 999999999) := by omega
    simp only [hnot, if_false] at h
    cases hs : c.signals with
    | nil =>
      simp [hs] at h
      obtain ⟨rfl, rfl⟩ := h
      simp
    | cons k rest =>
      simp only [hs] at h
      by_cases hk : k < ts.nanos
      · simp only [hk, if_true] at h
        simp at h
        have hv2 := ofNanos_valid (ts.nanos - k)
        have := ih _ _ hv2 r c' h
        rw [ofNanos_nanos] at this
        simp at this
        refine ⟨this.1, ?_⟩
        omega
      · simp only [hk, if_false] at h
        simp at h
        obtain ⟨rfl, rfl⟩ := h
        simp

theorem delay_loop_returns (fuel : Nat) : ∀ (ts : timespec) (c : Clock), ts.valid →
    c.signals.length < fuel → ∃ r c', delay_loop fuel ts c = some (r, c') := by
  induction fuel with
  | zero => intro ts c _ h; omega
  | succ n ih =>
    intro ts c hv hlen
    obtain ⟨h1, h2, h3⟩ := hv
    unfold delay_loop nanosleep
    have hnot : ¬ (ts.tv_sec < 0 ∨ ts.tv_nsec < 0 ∨ ts.tv_nsec > 999999999) := by omega
    simp only [hnot, if_false]
    cases hs : c.signals with
    | nil => simp
    | cons k rest =>
      simp only []
      by_cases hk : k < ts.nanos
      · simp only [hk, if_true]
        simp
        have hv2 := ofNanos_valid (ts.nanos - k)
        have hl : rest.length < n := by
          rw [hs] at hlen; simp at hlen; omega
        obtain ⟨r, c', h⟩ := ih _ { c with waits := c.waits ++ [ts], signals := rest, slept := c.slept + k, errno := EINTR } hv2 hl
        simp [EINTR] at h ⊢
        exact ⟨r, c', h⟩
      · simp [hk]

theorem delay_ts_valid (msec : Int) (h : 0 ≤ msec) :
    (({ tv_sec := msec.tdiv 1000, tv_nsec := msec.tmod 1000 * 1000000 } : timespec)).valid ∧
    (({ tv_sec := msec.tdiv 1000, tv_nsec := msec.tmod 1000 * 1000000 } : timespec)).nanos
      = (msec * 1000000).toNat := by
  have h1 : msec.tdiv 1000 = msec / 1000 := Int.tdiv_eq_ediv h (by norm_num)
  have h2 : msec.tmod 1000 = msec % 1000 := Int.tmod_eq_emod h (by norm_num)
  unfold timespec.valid timespec.nanos
  simp only [h1, h2]
  omega

theorem length_flatMap_pairs {α β : Type} (f : α → List β) (hf : ∀ x, (f x).length = 2) :
    ∀ l : List α, (l.flatMap f).length = 2 * l.length := by
  intro l
  induction l with
  | nil => rfl
  | cons x xs ih => simp [List.flatMap_cons, hf, ih]; omega

theorem dump_read_loop_ok (sys : Sys σ)
    (hW : ∀ fd bytes s, (sys.sys_write fd bytes s).1 = bytes.length)
    (hR : ∀ fd n s, ∃ bs, (sys.sys_read fd n s).1 = some bs ∧ bs.length = n)
    (n : Nat) : ∀ (i : Nat) (buf : List Byte) (w : World σ), i + n ≤ buf.length →
    ∃ (image : List Byte) (w1 : World σ),
      for_loop (dump_read_body sys) i n (buf, w) = (Res.ret (), (image, w1)) ∧
      image.length = buf.length ∧ w1.i2cfd = w.i2cfd ∧
      (∀ j, j < i → image.getD j 0 = buf.getD j 0) ∧
      w1.calls = w.calls ++ (List.range' i n).flatMap (fun j =>
        [Call.write w.i2cfd [Fin.ofNat j] 1, Call.read w.i2cfd 1 (some [image.getD j 0])]) := by
  induction n with
  | zero =>
    intro i buf w _
    exact ⟨buf, w, rfl, rfl, rfl, fun _ _ => rfl, by simp⟩
  | succ n ih =>
    intro i buf w hlen
    obtain ⟨bs, hbs, hbl⟩ := hR w.i2cfd 1 (sys.sys_write w.i2cfd [Fin.ofNat i] w.dev).2
    obtain ⟨b, rfl⟩ := List.length_eq_one.mp hbl
    have hbody : dump_read_body sys i (buf, w) = (Res.ret (), (buf.set i b,
        { w with dev := (sys.sys_read w.i2cfd 1 (sys.sys_write w.i2cfd [Fin.ofNat i] w.dev).2).2,
                 calls := w.calls ++ [Call.write w.i2cfd [Fin.ofNat i] 1] ++
                   [Call.read w.i2cfd 1 (some [b])] })) := by
      unfold dump_read_body
      simp [c_write, c_read1, hW, hbs, read_ret1, read_buf1]
    obtain ⟨image, w1, hrun, hl, hfd, hpre, hcalls⟩ :=
      ih (i + 1) (buf.set i b) _ (by simp; omega)
    refine ⟨image, w1, ?_, ?_, ?_, ?_, ?_⟩
    · rw [for_loop, hbody]; exact hrun
    · simpa using hl
    · simpa using hfd
    · intro j hj
      rw [hpre j (by omega)]
      have hne : ¬ i = j := by omega
      simp [List.getD, List.getElem?_set, hne]
    · have hi : image.getD i 0 = b := by
        rw [hpre i (by omega)]
        have hlt : i < buf.length := by omega
        simp [List.getD, List.getElem?_set, hlt]
      rw [hcalls]
      simp only [List.range'_succ, List.flatMap_cons, hi]
      simp

theorem String_empty_append (s : String) : "" ++ s = s := by
  apply String.ext; simp

theorem String_append_empty (s : String) : s ++ "" = s := by
  apply String.ext; simp

theorem for_each_stdout (body : Nat → World σ → World σ) (f : Nat → String)
    (hbody : ∀ i w, (body i w).stdout = w.stdout ++ f i) (n : Nat) :
    ∀ (i : Nat) (w : World σ), (for_each body i n w).stdout
      = w.stdout ++ ((List.range' i n).map f).foldr (fun a b => a ++ b) "" := by
  induction n with
  | zero => intro i w; simp [for_each, String_append_empty]
  | succ n ih =>
    intro i w
    rw [for_each, ih, hbody]
    simp [List.range'_succ, String.append_assoc]

theorem printf_calls (s : String) (w : World σ) : (printf s w).calls = w.calls := by
  simp only [printf]

theorem for_each_calls (body : Nat → World σ → World σ)
    (hbody : ∀ i w, (body i w).calls = w.calls) (n : Nat) :
    ∀ (i : Nat) (w : World σ), (for_each body i n w).calls = w.calls := by
  induction n with
  | zero => intro i w; rfl
  | succ n ih => intro i w; rw [for_each, ih, hbody]

theorem dump_table_body_calls (buf : List Byte) (i : Nat) (w : World σ) :
    (dump_table_body buf i w).calls = w.calls := by
  unfold dump_table_body
  simp only []
  split_ifs <;> rfl

theorem dump_names_body_calls (buf : List Byte) (i : Nat) (w : World σ) :
    (dump_names_body buf i w).calls = w.calls := by
  unfold dump_names_body
  split <;> rfl

theorem dump_table_calls (buf : List Byte) (w : World σ) :
    (dump_table buf w).calls = w.calls := by
  unfold dump_table
  rw [for_each_calls _ (dump_table_body_calls buf)]
  rfl

theorem dump_names_calls (buf : List Byte) (w : World σ) :
    (dump_names buf w).calls = w.calls := by
  unfold dump_names
  rw [for_each_calls _ (dump_names_body_calls buf)]

theorem lsm303d_dump_calls (sys : Sys σ) (w : World σ) (image : List Byte) (w1 : World σ)
    (h : dump_read sys w = (Res.ret (), (image, w1))) :
    (lsm303d_dump sys w).1 = Res.exit 0 ∧ (lsm303d_dump sys w).2.calls = w1.calls := by
  unfold lsm303d_dump
  rw [h]
  simp only [dump_names_calls, dump_table_calls, printf_calls, and_self]

/-- C1: on a transport where every write succeeds, `lsm303d_init` returns after
exactly three system calls, each a two-byte write and none a read, in this
order: (0x24, 0x64), then (0x25, 0x20), then (0x26, 0x00); afterwards the
calibration offset is (0, 0, 0) whatever it was before. -/
theorem lsm303d_init_three_writes (sys : Sys σ) (d : lsm303ddata) (w : World σ)
    (hok : ∀ fd bytes s, (sys.sys_write fd bytes s).1 = bytes.length) :
    (lsm303d_init sys d w).1 = Res.ret () ∧
    (lsm303d_init sys d w).2.calls = w.calls ++
      [Call.write w.i2cfd [0x24, 0x64] 2, Call.write w.i2cfd [0x25, 0x20] 2,
       Call.write w.i2cfd [0x26, 0x00] 2] ∧
    (lsm303d_init sys d w).2.offset = (CFloat.fin 0, CFloat.fin 0, CFloat.fin 0) := by
  obtain ⟨w1, h1, c1, f1, v1⟩ := init_write_ok sys LSM303D_CTRL5 0x64 (debug "Debug: lsm303d_init(): ...\n" w) hok
  obtain ⟨w2, h2, c2, f2, v2⟩ := init_write_ok sys LSM303D_CTRL6 0x20 w1 hok
  obtain ⟨w3, h3, c3, f3, v3⟩ := init_write_ok sys LSM303D_CTRL7 0x00 w2 hok
  have hd : ∀ (m : String) (x : World σ), (debug m x).calls = x.calls ∧ (debug m x).i2cfd = x.i2cfd ∧ (debug m x).offset = x.offset := by
    intro m x; unfold debug printf; split_ifs <;> simp
  simp only [lsm303d_init, h1, h2, h3]
  refine ⟨trivial, ?_, ?_⟩
  · simp [hd, c3, c2, c1, f2, f1, LSM303D_CTRL5, LSM303D_CTRL6, LSM303D_CTRL7]
  · simp [hd, CFloat.zero]

/-- The instance of C1 on the simulated sensor, started with the offset
(7, NaN, +inf). -/
theorem lsm303d_init_three_writes_witness :
    (lsm303d_init mockSys ⟨CFloat.nan, CFloat.nan, CFloat.nan⟩
        (mockWorld 0 (CFloat.fin 7, CFloat.nan, CFloat.posInf))).1 = Res.ret () ∧
    (lsm303d_init mockSys ⟨CFloat.nan, CFloat.nan, CFloat.nan⟩
        (mockWorld 0 (CFloat.fin 7, CFloat.nan, CFloat.posInf))).2.calls =
      (mockWorld 0 (CFloat.fin 7, CFloat.nan, CFloat.posInf)).calls ++
      [Call.write 0 [0x24, 0x64] 2, Call.write 0 [0x25, 0x20] 2,
       Call.write 0 [0x26, 0x00] 2] ∧
    (lsm303d_init mockSys ⟨CFloat.nan, CFloat.nan, CFloat.nan⟩
        (mockWorld 0 (CFloat.fin 7, CFloat.nan, CFloat.posInf))).2.offset
      = (CFloat.fin 0, CFloat.fin 0, CFloat.fin 0) :=
  lsm303d_init_three_writes mockSys _ _ mockSys_write_ok

/-- C2: for every transport, `get_i2cbus` appends only one-byte writes to the
trace (no two-byte register-configuration write); if the identification read
it performed yields 0 (the device answers 0, or nothing is delivered) it ends
the process with status -1, a failure; it either returns or exits with -1; and
whenever it returns, the bus was opened (descriptor not negative), the address
was bound (`ioctl` answered 0) and the identification byte read was non-zero. -/
theorem get_i2cbus_probe_gate (sys : Sys σ) (i2cbus i2caddr : String) (w : World σ) :
    ∃ delta, (get_i2cbus sys i2cbus i2caddr w).2.calls = w.calls ++ delta ∧
      (∀ fd bytes ret, Call.write fd bytes ret ∈ delta → bytes.length = 1) ∧
      (∀ fd n res, Call.read fd n res ∈ delta →
          (match res with | some (b :: _) => b | _ => (0 : Byte)) = 0 →
          (get_i2cbus sys i2cbus i2caddr w).1 = Res.exit (-1)) ∧
      ((get_i2cbus sys i2cbus i2caddr w).1 = Res.ret () ∨
        ((get_i2cbus sys i2cbus i2caddr w).1 = Res.exit (-1) ∧
          Res.isFailure (get_i2cbus sys i2cbus i2caddr w).1)) ∧
      ((get_i2cbus sys i2cbus i2caddr w).1 = Res.ret () →
        ∃ fd addr wret b rest, 0 ≤ fd ∧ b ≠ 0 ∧
          delta = [Call.open i2cbus O_RDWR fd, Call.ioctl fd I2C_SLAVE addr 0,
                   Call.write fd [0x0F] wret, Call.read fd 1 (some (b :: rest))]) := by
  have hfail : Res.isFailure (Res.exit (-1) : Res Unit) := by
    unfold Res.isFailure; decide
  obtain ⟨hres, hcalls⟩ := get_i2cbus_eq sys i2cbus i2caddr w
  refine ⟨_, hcalls, ?_⟩
  rw [hres]
  unfold i2cbus_result i2cbus_trace
  simp only []
  split_ifs with h1 h2 h3
  · simp [hfail]
  · simp [hfail]
  · refine ⟨?_, ?_, Or.inr ⟨rfl, hfail⟩, ?_⟩
    · intro fd bytes ret h
      simp at h
      simp [h.2.1]
    · intro fd n res h; simp
    · intro h; simp at h
  · refine ⟨?_, ?_, Or.inl rfl, ?_⟩
    · intro fd bytes ret h
      simp at h
      simp [h.2.1]
    · intro fd n res h h0
      simp at h
      rw [h.2.2] at h0
      exact absurd h0 h3
    · intro _
      revert h3
      unfold read_buf1
      split
      · rename_i b rest hb
        intro h3
        refine ⟨(sys.sys_open i2cbus O_RDWR w.dev).1, toInt32 (sys.strtol i2caddr 16),
          (sys.sys_write (sys.sys_open i2cbus O_RDWR w.dev).1 [0x0F]
            (sys.sys_ioctl (sys.sys_open i2cbus O_RDWR w.dev).1 I2C_SLAVE
              (toInt32 (sys.strtol i2caddr 16)) (sys.sys_open i2cbus O_RDWR w.dev).2).2).1,
          b, rest, not_lt.mp h1, h3, ?_⟩
        rw [not_not.mp h2, hb]
      · intro h3; exact absurd rfl h3

/-- The instance of C2 on a bus with no sensor behind it: the probe read
delivers nothing and `get_i2cbus` exits with -1 after the open, the bind, a
one-byte write and the read. -/
theorem get_i2cbus_probe_gate_witness :
    (get_i2cbus deadSys I2CBUS I2C_ADDR (mockWorld 0 (CFloat.zero, CFloat.zero, CFloat.zero))).1
      = Res.exit (-1) ∧
    (get_i2cbus deadSys I2CBUS I2C_ADDR
        (mockWorld 0 (CFloat.zero, CFloat.zero, CFloat.zero))).2.calls
      = [Call.open "/dev/i2c-1" 2 3, Call.ioctl 3 0x0703 0x1d 0,
         Call.write 3 [0x0F] (-1), Call.read 3 1 none] := by
  have hc : (get_i2cbus deadSys I2CBUS I2C_ADDR
        (mockWorld 0 (CFloat.zero, CFloat.zero, CFloat.zero))).2.calls
      = [Call.open "/dev/i2c-1" 2 3, Call.ioctl 3 0x0703 0x1d 0,
         Call.write 3 [0x0F] (-1), Call.read 3 1 none] := by
    rfl
  obtain ⟨delta, hd, _, hr, _, _⟩ := get_i2cbus_probe_gate deadSys I2CBUS I2C_ADDR
    (mockWorld 0 (CFloat.zero, CFloat.zero, CFloat.zero))
  refine ⟨hr 3 1 none ?_ rfl, hc⟩
  rw [hc] at hd
  have hdelta : delta = [Call.open "/dev/i2c-1" 2 3, Call.ioctl 3 0x0703 0x1d 0,
      Call.write 3 [0x0F] (-1), Call.read 3 1 none] := by
    simpa [mockWorld] using hd.symm
  rw [hdelta]
  simp

/-- C3: for every transport state, `get_prdid` makes exactly two system calls,
in this order: a one-byte write of the register address 0x0F, whatever its
return value, then a one-byte read; it returns to its caller (it never exits),
with the byte read when the read delivered one and with 0 when it did not. -/
theorem get_prdid_two_transactions (sys : Sys σ) (w : World σ) :
    (get_prdid sys w).1 = Res.ret
      (match (sys.sys_read w.i2cfd 1 (sys.sys_write w.i2cfd [0x0F] w.dev).2).1 with
       | some (b :: _) => b
       | _ => 0) ∧
    (get_prdid sys w).2.calls = w.calls ++
      [Call.write w.i2cfd [0x0F] (sys.sys_write w.i2cfd [0x0F] w.dev).1,
       Call.read w.i2cfd 1 (sys.sys_read w.i2cfd 1 (sys.sys_write w.i2cfd [0x0F] w.dev).2).1] := by
  refine ⟨?_, (get_prdid_eq sys w).2.1⟩
  rw [(get_prdid_eq sys w).1]
  rfl

/-- C4: `lsm303d_read` on a sensor whose data registers hold the raw sample
(4096, 0, 0), with zero offset: the code makes no system call and leaves the
struct (7, 8, 9) it is given as it was, where the claim has X = 2000. -/
theorem lsm303d_read_stores_nothing :
    (lsm303d_read mockSys ⟨CFloat.fin 7, CFloat.fin 8, CFloat.fin 9⟩ sampleWorld).1
      = Res.ret (0, ⟨CFloat.fin 7, CFloat.fin 8, CFloat.fin 9⟩) ∧
    (lsm303d_read mockSys ⟨CFloat.fin 7, CFloat.fin 8, CFloat.fin 9⟩ sampleWorld).2.calls = [] ∧
    CFloat.fin 7 ≠ CFloat.fin 2000 :=
  ⟨rfl, rfl, by decide⟩

/-- C5: `get_heading` with declination 0 returns 0 both for the sample X = -1,
Y = 1 and for the sample X = 1, Y = 1, where the claim has about 45 and 315. -/
theorem get_heading_returns_zero :
    (get_heading ⟨CFloat.fin (-1), CFloat.fin 1, CFloat.fin 0⟩ sampleWorld).1
      = Res.ret (CFloat.fin 0) ∧
    (get_heading ⟨CFloat.fin 1, CFloat.fin 1, CFloat.fin 0⟩ sampleWorld).1
      = Res.ret (CFloat.fin 0) ∧
    sampleWorld.declination = CFloat.fin 0 ∧
    ¬ CFloat.inRange 44 46 (CFloat.fin 0) ∧ CFloat.fin 0 ≠ CFloat.fin 315 :=
  ⟨rfl, rfl, rfl, by decide, by decide⟩

theorem ofNanos_of_valid (ts : timespec) (hv : ts.valid) : timespec.ofNanos ts.nanos = ts := by
  obtain ⟨h1, h2, h3⟩ := hv
  cases ts with
  | mk s n =>
    unfold timespec.ofNanos timespec.nanos
    simp only [timespec.mk.injEq] at *
    constructor <;> omega

theorem delay_loop_exact (fuel : Nat) : ∀ (ts : timespec) (c : Clock), ts.valid →
    ∀ r c', delay_loop fuel ts c = some (r, c') →
      c'.slept = c.slept + ts.nanos + c.late ∧ c'.late = c.late ∧
      c'.waits = c.waits ++ (remaining_requests ts.nanos c.signals).map timespec.ofNanos := by
  induction fuel with
  | zero => intro ts c _ r c' h; simp [delay_loop] at h
  | succ n ih =>
    intro ts c hv r c' h
    have hts := ofNanos_of_valid ts hv
    obtain ⟨h1, h2, h3⟩ := hv
    unfold delay_loop nanosleep at h
    have hnot : ¬ (ts.tv_sec < 0 ∨ ts.tv_nsec < 0 ∨ ts.tv_nsec > 999999999) := by omega
    simp only [hnot, if_false] at h
    cases hs : c.signals with
    | nil =>
      simp [hs] at h
      obtain ⟨rfl, rfl⟩ := h
      simp [remaining_requests, hts]
    | cons k rest =>
      simp only [hs] at h
      by_cases hk : k < ts.nanos
      · simp only [hk, if_true] at h
        simp at h
        have hv2 := ofNanos_valid (ts.nanos - k)
        obtain ⟨hsl, hlate, hw⟩ := ih _ _ hv2 r c' h
        rw [ofNanos_nanos] at hsl hw
        simp only [] at hsl hlate hw
        refine ⟨by omega, hlate, ?_⟩
        rw [hw]
        simp [remaining_requests, hk, hts]
      · simp only [hk, if_false] at h
        simp at h
        obtain ⟨rfl, rfl⟩ := h
        simp [remaining_requests, hk, hts]

/-- C7: for every `msec ≥ 0` and every finite list of interruptions, `delay`
returns 0, with the total time slept grown by at least `msec` milliseconds
(`msec * 1000000` ns), once its loop may run one iteration more than there are
interruptions; and with any bound on the iterations, if it returns it returns
0 with at least that much time slept: it never returns early and never fails.
An interruption makes it resume with the remaining time: the requests passed
to `nanosleep` are `msec` ms first and, after each interruption that came `k`
ns into a request, that request less `k`; the total time slept is `msec` ms
plus the oversleep of the one wait that completes, no more. -/
theorem delay_sleeps_at_least (msec : Int) (hmsec : 0 ≤ msec) (c : Clock) (fuel : Nat) :
    (c.signals.length < fuel →
      ∃ c', delay fuel msec c = some (0, c') ∧
        c.slept + (msec * 1000000).toNat ≤ c'.slept) ∧
    (∀ r c', delay fuel msec c = some (r, c') →
      r = 0 ∧ c.slept + (msec * 1000000).toNat ≤ c'.slept) ∧
    (∀ r c', delay fuel msec c = some (r, c') →
      c'.slept = c.slept + (msec * 1000000).toNat + c.late ∧
      c'.waits = c.waits ++
        (remaining_requests (msec * 1000000).toNat c.signals).map timespec.ofNanos) := by
  have hlt : ¬ msec < 0 := by omega
  obtain ⟨hv, hn⟩ := delay_ts_valid msec hmsec
  have hsound : ∀ r c', delay fuel msec c = some (r, c') →
      r = 0 ∧ c.slept + (msec * 1000000).toNat ≤ c'.slept := by
    intro r c' h
    simp only [delay, hlt, if_false] at h
    have := delay_loop_sound fuel _ c hv r c' h
    rw [hn] at this
    exact this
  refine ⟨?_, hsound, ?_⟩
  · intro hlen
    obtain ⟨r, c', h⟩ := delay_loop_returns fuel _ c hv hlen
    have hd : delay fuel msec c = some (r, c') := by simp [delay, hlt, h]
    obtain ⟨hr, hs⟩ := hsound r c' hd
    subst hr
    exact ⟨c', hd, hs⟩
  · intro r c' h
    simp only [delay, hlt, if_false] at h
    obtain ⟨hsl, _, hw⟩ := delay_loop_exact fuel _ c hv r c' h
    rw [hn] at hsl hw
    exact ⟨hsl, hw⟩

/-- The instance of C7 for `delay(5)` with interruptions 2 ms into the first
wait and 1 ms into the second: it returns 0 after requests of 5 ms, 3 ms and
2 ms, having slept 5000000 ns plus the 1000 ns of oversleep. -/
theorem delay_sleeps_at_least_witness :
    ∃ c', delay 3 5 mockClock = some (0, c') ∧ 5000000 ≤ c'.slept ∧
      c'.slept = 5001000 ∧
      c'.waits = [{ tv_sec := 0, tv_nsec := 5000000 }, { tv_sec := 0, tv_nsec := 3000000 },
                  { tv_sec := 0, tv_nsec := 2000000 }] := by
  obtain ⟨hret, _, hexact⟩ := delay_sleeps_at_least 5 (by decide) mockClock 3
  obtain ⟨c', hc, hs⟩ := hret (by decide)
  obtain ⟨hsl, hw⟩ := hexact 0 c' hc
  refine ⟨c', hc, by simpa [mockClock] using hs, by simpa [mockClock] using hsl, ?_⟩
  rw [hw]
  decide

/-- C8: for every `msec < 0`, `delay` returns -1 with `errno` set to `EINVAL`
and calls `nanosleep` not once: the list of waits, the time slept and the
pending signals are as before. -/
theorem delay_negative_fails (msec : Int) (hmsec : msec < 0) (c : Clock) (fuel : Nat) :
    ∃ c', delay fuel msec c = some (-1, c') ∧ c'.errno = EINVAL ∧
      c'.waits = c.waits ∧ c'.slept = c.slept ∧ c'.signals = c.signals :=
  ⟨{ c with errno := EINVAL }, by simp [delay, hmsec], rfl, rfl, rfl, rfl⟩

/-- The instance of C8 for `delay(-1)`. -/
theorem delay_negative_fails_witness :
    ∃ c', delay 0 (-1) mockClock = some (-1, c') ∧ c'.errno = EINVAL ∧
      c'.waits = mockClock.waits ∧ c'.slept = mockClock.slept ∧
      c'.signals = mockClock.signals :=
  delay_negative_fails (-1) (by decide) mockClock 0

/-- C9: on a transport where every write and every read succeeds, the read
loop of `lsm303d_dump` completes after exactly 128 system calls, 64 pairs: for
`i = 0, ..., 63` in this order a write of the single byte `i` and then a read
of one byte, which is byte `i` of the register image; `lsm303d_dump` makes no
other system call before it ends with `exit(0)`. -/
theorem dump_read_pairs (sys : Sys σ) (w : World σ)
    (hW : ∀ fd bytes s, (sys.sys_write fd bytes s).1 = bytes.length)
    (hR : ∀ fd n s, ∃ bs, (sys.sys_read fd n s).1 = some bs ∧ bs.length = n) :
    ∃ (image : List Byte) (w1 : World σ),
      dump_read sys w = (Res.ret (), (image, w1)) ∧ image.length = 64 ∧
      w1.calls = w.calls ++ (List.range 64).flatMap (fun i =>
        [Call.write w.i2cfd [Fin.ofNat i] 1, Call.read w.i2cfd 1 (some [image.getD i 0])]) ∧
      w1.calls.length = w.calls.length + 128 ∧
      (∀ i, i < 64 → ((Fin.ofNat i : Byte) : Nat) = i) ∧
      (lsm303d_dump sys w).1 = Res.exit 0 ∧ (lsm303d_dump sys w).2.calls = w1.calls := by
  obtain ⟨image, w1, hrun, hl, _, _, hcalls⟩ :=
    dump_read_loop_ok sys hW hR 64 0 (List.replicate 64 0) w (by simp)
  refine ⟨image, w1, hrun, by simpa using hl, ?_, ?_, ?_, lsm303d_dump_calls sys w image w1 hrun⟩
  · rw [hcalls, List.range_eq_range']
  · rw [hcalls, List.length_append]
    rw [length_flatMap_pairs (fun j => [Call.write w.i2cfd [Fin.ofNat j] 1,
      Call.read w.i2cfd 1 (some [image.getD j 0])]) (fun _ => rfl)]
    simp
  · intro i hi
    show i % 256 = i
    omega

/-- The instance of C9 on the simulated sensor. -/
theorem dump_read_pairs_witness :
    ∃ (image : List Byte) (w1 : World MockDev),
      dump_read mockSys sampleWorld = (Res.ret (), (image, w1)) ∧ image.length = 64 ∧
      w1.calls = sampleWorld.calls ++ (List.range 64).flatMap (fun i =>
        [Call.write sampleWorld.i2cfd [Fin.ofNat i] 1,
         Call.read sampleWorld.i2cfd 1 (some [image.getD i 0])]) ∧
      w1.calls.length = sampleWorld.calls.length + 128 ∧
      (∀ i, i < 64 → ((Fin.ofNat i : Byte) : Nat) = i) ∧
      (lsm303d_dump mockSys sampleWorld).1 = Res.exit 0 ∧
      (lsm303d_dump mockSys sampleWorld).2.calls = w1.calls :=
  dump_read_pairs mockSys sampleWorld mockSys_write_ok mockSys_read_ok

theorem init_write_eq (sys : Sys σ) (reg val : Byte) (w : World σ) :
    (init_write sys reg val w).1
      = (if (sys.sys_write w.i2cfd [reg, val] w.dev).1 ≠ 2 then Res.exit (-1) else Res.ret ()) ∧
    (init_write sys reg val w).2.calls
      = w.calls ++ [Call.write w.i2cfd [reg, val] (sys.sys_write w.i2cfd [reg, val] w.dev).1] ∧
    (init_write sys reg val w).2.i2cfd = w.i2cfd ∧
    (init_write sys reg val w).2.offset = w.offset ∧
    (init_write sys reg val w).2.dev = (sys.sys_write w.i2cfd [reg, val] w.dev).2 := by
  unfold init_write
  simp only [c_write, debug_frame]
  split_ifs <;> simp [printf, debug_frame]

theorem init_write_pair (sys : Sys σ) (reg val : Byte) (w : World σ) :
    init_write sys reg val w
      = (if (sys.sys_write w.i2cfd [reg, val] w.dev).1 ≠ 2 then Res.exit (-1) else Res.ret (),
          (init_write sys reg val w).2) :=
  Prod.ext (init_write_eq sys reg val w).1 rfl

/-! ## The claims, continued -/

/-- C11: every write failure in `lsm303d_init` is fatal.  If the first write
is short, or the first is complete and the second is short, or the first two
are complete and the third is short, then `lsm303d_init` ends the process
with status -1, a failure; the trace ends with the short write, so none of the
later writes is issued; and the calibration offset is as it was before. -/
theorem lsm303d_init_write_failure_fatal (sys : Sys σ) (d : lsm303ddata) (w : World σ) :
    ((sys.sys_write w.i2cfd [0x24, 0x64] w.dev).1 ≠ 2 →
      (lsm303d_init sys d w).1 = Res.exit (-1) ∧ Res.isFailure (lsm303d_init sys d w).1 ∧
      (lsm303d_init sys d w).2.calls = w.calls ++
        [Call.write w.i2cfd [0x24, 0x64] (sys.sys_write w.i2cfd [0x24, 0x64] w.dev).1] ∧
      (lsm303d_init sys d w).2.offset = w.offset) ∧
    (∀ s1, sys.sys_write w.i2cfd [0x24, 0x64] w.dev = (2, s1) →
      (sys.sys_write w.i2cfd [0x25, 0x20] s1).1 ≠ 2 →
      (lsm303d_init sys d w).1 = Res.exit (-1) ∧ Res.isFailure (lsm303d_init sys d w).1 ∧
      (lsm303d_init sys d w).2.calls = w.calls ++
        [Call.write w.i2cfd [0x24, 0x64] 2,
         Call.write w.i2cfd [0x25, 0x20] (sys.sys_write w.i2cfd [0x25, 0x20] s1).1] ∧
      (lsm303d_init sys d w).2.offset = w.offset) ∧
    (∀ s1 s2, sys.sys_write w.i2cfd [0x24, 0x64] w.dev = (2, s1) →
      sys.sys_write w.i2cfd [0x25, 0x20] s1 = (2, s2) →
      (sys.sys_write w.i2cfd [0x26, 0x00] s2).1 ≠ 2 →
      (lsm303d_init sys d w).1 = Res.exit (-1) ∧ Res.isFailure (lsm303d_init sys d w).1 ∧
      (lsm303d_init sys d w).2.calls = w.calls ++
        [Call.write w.i2cfd [0x24, 0x64] 2, Call.write w.i2cfd [0x25, 0x20] 2,
         Call.write w.i2cfd [0x26, 0x00] (sys.sys_write w.i2cfd [0x26, 0x00] s2).1] ∧
      (lsm303d_init sys d w).2.offset = w.offset) := by
  have hfail : Res.isFailure (Res.exit (-1) : Res Unit) := by
    unfold Res.isFailure; decide
  unfold lsm303d_init
  simp only []
  refine ⟨?_, ?_, ?_⟩
  · intro hne
    rw [init_write_pair]
    simp only [debug_frame, LSM303D_CTRL5]
    rw [if_pos hne]
    simp only [(init_write_eq sys _ _ _).2, debug_frame, LSM303D_CTRL5]
    exact ⟨trivial, hfail, trivial, trivial⟩
  · intro s1 h1 hne
    rw [init_write_pair]
    simp only [debug_frame, LSM303D_CTRL5, h1, ne_eq, not_true_eq_false, if_false]
    rw [init_write_pair]
    simp only [(init_write_eq sys _ _ _).2, debug_frame, LSM303D_CTRL5, LSM303D_CTRL6, h1]
    rw [if_pos hne]
    simp only [(init_write_eq sys _ _ _).2, debug_frame, LSM303D_CTRL5, LSM303D_CTRL6, h1]
    exact ⟨trivial, hfail, by simp, trivial⟩
  · intro s1 s2 h1 h2 hne
    rw [init_write_pair]
    simp only [debug_frame, LSM303D_CTRL5, h1, ne_eq, not_true_eq_false, if_false]
    rw [init_write_pair]
    simp only [(init_write_eq sys _ _ _).2, debug_frame, LSM303D_CTRL5, LSM303D_CTRL6, h1, h2,
      ne_eq, not_true_eq_false, if_false]
    rw [init_write_pair]
    simp only [(init_write_eq sys _ _ _).2, debug_frame, LSM303D_CTRL5, LSM303D_CTRL6,
      LSM303D_CTRL7, h1, h2]
    rw [if_pos hne]
    simp only [(init_write_eq sys _ _ _).2, debug_frame, LSM303D_CTRL5, LSM303D_CTRL6,
      LSM303D_CTRL7, h1, h2]
    exact ⟨trivial, hfail, by simp, trivial⟩

/-- The instances of C11 on a transport that cuts the first, the second and
the third write short, started with the offset (7, 8, 9). -/
theorem lsm303d_init_write_failure_fatal_witness :
    ((lsm303d_init (shortSys 1) ⟨CFloat.nan, CFloat.nan, CFloat.nan⟩ countWorld).1
        = Res.exit (-1) ∧
      (lsm303d_init (shortSys 1) ⟨CFloat.nan, CFloat.nan, CFloat.nan⟩ countWorld).2.calls
        = [Call.write 3 [0x24, 0x64] 1] ∧
      (lsm303d_init (shortSys 1) ⟨CFloat.nan, CFloat.nan, CFloat.nan⟩ countWorld).2.offset
        = (CFloat.fin 7, CFloat.fin 8, CFloat.fin 9)) ∧
    ((lsm303d_init (shortSys 2) ⟨CFloat.nan, CFloat.nan, CFloat.nan⟩ countWorld).1
        = Res.exit (-1) ∧
      (lsm303d_init (shortSys 2) ⟨CFloat.nan, CFloat.nan, CFloat.nan⟩ countWorld).2.calls
        = [Call.write 3 [0x24, 0x64] 2, Call.write 3 [0x25, 0x20] 1] ∧
      (lsm303d_init (shortSys 2) ⟨CFloat.nan, CFloat.nan, CFloat.nan⟩ countWorld).2.offset
        = (CFloat.fin 7, CFloat.fin 8, CFloat.fin 9)) ∧
    ((lsm303d_init (shortSys 3) ⟨CFloat.nan, CFloat.nan, CFloat.nan⟩ countWorld).1
        = Res.exit (-1) ∧
      (lsm303d_init (shortSys 3) ⟨CFloat.nan, CFloat.nan, CFloat.nan⟩ countWorld).2.calls
        = [Call.write 3 [0x24, 0x64] 2, Call.write 3 [0x25, 0x20] 2,
           Call.write 3 [0x26, 0x00] 1] ∧
      (lsm303d_init (shortSys 3) ⟨CFloat.nan, CFloat.nan, CFloat.nan⟩ countWorld).2.offset
        = (CFloat.fin 7, CFloat.fin 8, CFloat.fin 9)) := by
  have h1 := (lsm303d_init_write_failure_fatal (shortSys 1)
    ⟨CFloat.nan, CFloat.nan, CFloat.nan⟩ countWorld).1 (by decide)
  have h2 := (lsm303d_init_write_failure_fatal (shortSys 2)
    ⟨CFloat.nan, CFloat.nan, CFloat.nan⟩ countWorld).2.1 1 rfl (by decide)
  have h3 := (lsm303d_init_write_failure_fatal (shortSys 3)
    ⟨CFloat.nan, CFloat.nan, CFloat.nan⟩ countWorld).2.2 1 2 rfl rfl (by decide)
  exact ⟨⟨h1.1, h1.2.2.1, h1.2.2.2⟩, ⟨h2.1, h2.2.2.1, h2.2.2.2⟩, ⟨h3.1, h3.2.2.1, h3.2.2.2⟩⟩

/-- C12: at the driver state of the simulated sensor `lsm303d_swreset` does
not return to its caller: it ends the process with `exit(0)`. -/
theorem lsm303d_swreset_does_not_return :
    (lsm303d_swreset mockSys sampleWorld).1 = Res.exit 0 ∧
    ¬ ∃ v, (lsm303d_swreset mockSys sampleWorld).1 = Res.ret v := by
  refine ⟨rfl, ?_⟩
  rintro ⟨v, hv⟩
  exact Res.noConfusion hv

/-- C12, amended: for every driver state and every argument, `lsm303d_set`,
`lsm303d_reset` and `set_cmfreq` return to their caller with the whole state
as it was (no system call added to the trace, offset, declination and bus
handle unchanged), `set_cmfreq` returning 0 for every requested mode;
`lsm303d_swreset` likewise leaves the whole state as it was, but ends the
process with `exit(0)` instead of returning. -/
theorem stubs_are_no_ops (sys : Sys σ) (new_mode : Int) (w : World σ) :
    (lsm303d_set sys w = (Res.ret (), w) ∧
      lsm303d_reset sys w = (Res.ret (), w) ∧
      set_cmfreq sys new_mode w = (Res.ret 0, w) ∧
      lsm303d_swreset sys w = (Res.exit 0, w)) ∧
    ((lsm303d_set sys w).2.calls = w.calls ∧ (lsm303d_reset sys w).2.calls = w.calls ∧
      (set_cmfreq sys new_mode w).2.calls = w.calls ∧
      (lsm303d_swreset sys w).2.calls = w.calls) ∧
    ((lsm303d_set sys w).2.offset = w.offset ∧ (lsm303d_set sys w).2.declination = w.declination ∧
      (lsm303d_set sys w).2.i2cfd = w.i2cfd) ∧
    ((lsm303d_reset sys w).2.offset = w.offset ∧
      (lsm303d_reset sys w).2.declination = w.declination ∧
      (lsm303d_reset sys w).2.i2cfd = w.i2cfd) ∧
    ((set_cmfreq sys new_mode w).2.offset = w.offset ∧
      (set_cmfreq sys new_mode w).2.declination = w.declination ∧
      (set_cmfreq sys new_mode w).2.i2cfd = w.i2cfd) ∧
    ((lsm303d_swreset sys w).2.offset = w.offset ∧
      (lsm303d_swreset sys w).2.declination = w.declination ∧
      (lsm303d_swreset sys w).2.i2cfd = w.i2cfd) :=
  ⟨⟨rfl, rfl, rfl, rfl⟩, ⟨rfl, rfl, rfl, rfl⟩, ⟨rfl, rfl, rfl⟩, ⟨rfl, rfl, rfl⟩,
    ⟨rfl, rfl, rfl⟩, ⟨rfl, rfl, rfl⟩⟩

theorem delay_loop_waits (fuel : Nat) : ∀ (ts : timespec) (c : Clock), ts.valid →
    ∀ r c', delay_loop fuel ts c = some (r, c') →
      ∃ rest, c'.waits = c.waits ++ ts :: rest ∧ ∀ t ∈ rest, t.valid := by
  induction fuel with
  | zero => intro ts c _ r c' h; simp [delay_loop] at h
  | succ n ih =>
    intro ts c hv r c' h
    obtain ⟨h1, h2, h3⟩ := hv
    unfold delay_loop nanosleep at h
    have hnot : ¬ (ts.tv_sec < 0 ∨ ts.tv_nsec < 0 ∨ ts.tv_nsec > 999999999) := by omega
    simp only [hnot, if_false] at h
    cases hs : c.signals with
    | nil =>
      simp [hs] at h
      obtain ⟨rfl, rfl⟩ := h
      exact ⟨[], rfl, by simp⟩
    | cons k rest =>
      simp only [hs] at h
      by_cases hk : k < ts.nanos
      · simp only [hk, if_true] at h
        simp at h
        have hv2 := ofNanos_valid (ts.nanos - k)
        obtain ⟨more, hw, hvalid⟩ := ih _ _ hv2 r c' h
        refine ⟨timespec.ofNanos (ts.nanos - k) :: more, by simpa using hw, ?_⟩
        intro t ht
        rcases List.mem_cons.mp ht with rfl | ht
        · exact hv2
        · exact hvalid t ht
      · simp only [hk, if_false] at h
        simp at h
        obtain ⟨rfl, rfl⟩ := h
        exact ⟨[], rfl, by simp⟩

/-- C13: for every `msec ≥ 0` the product `(msec % 1000) * 1000000` lies in
`0 .. 999000000`, inside the range of a 32-bit signed `long`, so it does not
overflow; whenever `delay` returns, the first request it passed to `nanosleep`
has `tv_sec = msec / 1000`, `0 ≤ tv_nsec ≤ 999000000 < 10^9` and
`tv_sec * 10^9 + tv_nsec = msec * 10^6`, and every later request of the loop
is one `nanosleep` accepts too; and `delay` returns 0, never the failure of a
rejected request, once its loop may run one iteration more than there are
interruptions. -/
theorem delay_timespec_exact (msec : Int) (hmsec : 0 ≤ msec) (c : Clock) (fuel : Nat) :
    (0 ≤ msec.tmod 1000 * 1000000 ∧ msec.tmod 1000 * 1000000 ≤ 999000000 ∧
      msec.tmod 1000 * 1000000 ≤ 2147483647 ∧
      toInt32 (msec.tmod 1000 * 1000000) = msec.tmod 1000 * 1000000) ∧
    (∀ r c', delay fuel msec c = some (r, c') →
      ∃ ts rest, c'.waits = c.waits ++ ts :: rest ∧
        ts.tv_sec = msec / 1000 ∧ ts.tv_nsec = msec.tmod 1000 * 1000000 ∧
        0 ≤ ts.tv_sec ∧ 0 ≤ ts.tv_nsec ∧ ts.tv_nsec ≤ 999000000 ∧
        ts.tv_nsec < 1000000000 ∧
        ts.tv_sec * 1000000000 + ts.tv_nsec = msec * 1000000 ∧
        ∀ t ∈ rest, 0 ≤ t.tv_sec ∧ 0 ≤ t.tv_nsec ∧ t.tv_nsec ≤ 999999999) ∧
    (c.signals.length < fuel → ∃ c', delay fuel msec c = some (0, c')) := by
  have hlt : ¬ msec < 0 := by omega
  have h1 : msec.tdiv 1000 = msec / 1000 := Int.tdiv_eq_ediv hmsec (by norm_num)
  have h2 : msec.tmod 1000 = msec % 1000 := Int.tmod_eq_emod hmsec (by norm_num)
  obtain ⟨hv, hn⟩ := delay_ts_valid msec hmsec
  refine ⟨?_, ?_, ?_⟩
  · rw [h2]
    unfold toInt32
    omega
  · intro r c' h
    simp only [delay, hlt, if_false] at h
    obtain ⟨rest, hw, hvalid⟩ := delay_loop_waits fuel _ c hv r c' h
    refine ⟨_, rest, hw, h1, rfl, ?_, ?_, ?_, ?_, ?_, hvalid⟩ <;> simp only [h1, h2] <;> omega
  · intro hlen
    obtain ⟨r, c', h⟩ := delay_loop_returns fuel _ c hv hlen
    have hr := (delay_loop_sound fuel _ c hv r c' h).1
    subst hr
    exact ⟨c', by simp [delay, hlt, h]⟩

/-- The instance of C13 for `delay(1500)` with two interruptions: it returns
0 and the first request passed to `nanosleep` is 1 s and 500000000 ns. -/
theorem delay_timespec_exact_witness :
    ∃ c', delay 3 1500 mockClock = some (0, c') ∧
      ∃ rest, c'.waits = ({ tv_sec := 1, tv_nsec := 500000000 } : timespec) :: rest := by
  obtain ⟨_, hts, hret⟩ := delay_timespec_exact 1500 (by decide) mockClock 3
  obtain ⟨c', hc⟩ := hret (by decide)
  obtain ⟨ts, rest, hw, hsec, hnsec, _⟩ := hts 0 c' hc
  refine ⟨c', hc, rest, ?_⟩
  have e : ts = ({ tv_sec := 1, tv_nsec := 500000000 } : timespec) := by
    cases ts
    simp only [timespec.mk.injEq]
    exact ⟨by simpa using hsec, by simpa using hnsec⟩
  rw [hw, e]
  rfl

set_option maxRecDepth 1000000 in
/-- C14: for every byte `b`, `BYTE_TO_BINARY(b)` printed with the eight `%c`
of `BYTE_TO_BINARY_PATTERN` is exactly 8 characters, each '0' or '1'; read as
a base-2 numeral, most significant digit first, they give back `b`; and the
`k`-th character from the left is '1' exactly when bit `7 - k` of `b` is
set. -/
theorem byte_to_binary_digits : ∀ b : Byte,
    (BYTE_TO_BINARY b).length = 8 ∧
    (String.mk (BYTE_TO_BINARY b)).length = 8 ∧
    (∀ c ∈ BYTE_TO_BINARY b, c = '0' ∨ c = '1') ∧
    binaryValue (BYTE_TO_BINARY b) = b.val ∧
    (∀ k : Fin 8, ((BYTE_TO_BINARY b).getD k.val '0' = '1' ↔
      b.val.testBit (7 - k.val) = true)) := by
  decide

theorem dump_names_body_stdout (buf : List Byte) (i : Nat) (w : World σ) :
    (dump_names_body buf i w).stdout = w.stdout ++ name_line buf i := by
  unfold dump_names_body name_line
  cases dump_name i with
  | none => simp [String_append_empty]
  | some name => simp [printf_stdout, String.append_assoc]

theorem name_rows (g : Nat → String) (hg : ∀ i, dump_name i = none → g i = "") :
    ((List.range' 0 64).map g).foldr (fun a b => a ++ b) ""
      = ([5, 6, 7, 8, 9, 10, 11, 12, 13, 15].map g).foldr (fun a b => a ++ b) "" := by
  have e : List.range' 0 64 = [0,1,2,3,4,5,6,7,8,9,10,11,12,13,14,15,16,17,18,19,20,21,22,23,24,25,26,27,28,29,30,31,32,33,34,35,36,37,38,39,40,41,42,43,44,45,46,47,48,49,50,51,52,53,54,55,56,57,58,59,60,61,62,63] := by decide
  rw [e]
  simp [hg, dump_name, String_empty_append, String_append_empty]

/-- C15: for every register image the register name table `lsm303d_dump`
prints is the lines of the indices 5, 6, ..., 13 and 15, in this order, and
nothing else; their labels are TEMP_OUT_L, TEMP_OUT_M, STATUS_M, OUT_X_L_M,
OUT_X_H_M, OUT_Y_L_M, OUT_Y_H_M, OUT_Z_L_M, OUT_X_H_M, WHO_AMI_I, so the
distinct indices 9 and 13 are printed under the same label. -/
theorem dump_name_duplicate_label (buf : List Byte) (w : World σ) :
    (dump_names buf w).stdout = w.stdout ++
      ([5, 6, 7, 8, 9, 10, 11, 12, 13, 15].map (name_line buf)).foldr (fun a b => a ++ b) "" ∧
    [5, 6, 7, 8, 9, 10, 11, 12, 13, 15].map dump_name =
      [some "TEMP_OUT_L", some "TEMP_OUT_M", some "  STATUS_M", some " OUT_X_L_M",
       some " OUT_X_H_M", some " OUT_Y_L_M", some " OUT_Y_H_M", some " OUT_Z_L_M",
       some " OUT_X_H_M", some " WHO_AMI_I"] ∧
    dump_name 9 = dump_name 13 ∧ (9 : Nat) ≠ 13 := by
  refine ⟨?_, rfl, rfl, by decide⟩
  unfold dump_names
  rw [for_each_stdout _ _ (dump_names_body_stdout buf), name_rows]
  intro i hi
  simp [name_line, hi]

end Lsm303d
